import Mathlib

/-!
Verification development for the player-connection gateway
(`src/matchmaker/extension/gateway.js`): a matchmaker that pairs waiting
client sessions ("players") with backend streaming workers ("streamers").

The embedding below translates the gateway's data model and event handlers
into executable Lean definitions.  Machine state is explicit: the pool of
worker records, the list of sessions ever created, and the waiting queue
(a JS `Set` of players, modelled as an insertion-ordered duplicate-free
list of session ids).  Each JS event handler becomes a state-transforming
function; asynchronous delivery of events is modelled by a step relation.
-/

/-- A worker ("streamer") record from the cirrus server pool.  The pool is
a `Map` maintained outside the gateway; `wid` models the map key / object
identity.  The gateway reads `ready`, `numConnectedClients`,
`lastPingReceived` and reads/writes `allocated`. -/
structure Worker where
  wid : Nat
  address : String
  port : Nat
  ready : Bool
  allocated : Bool
  numConnectedClients : Nat
  lastPingReceived : Int
  deriving DecidableEq, Repr

/-- The `detail` field of a notice: either a free-form string or the
backend worker descriptor passed to `sendNotice(backend)`. -/
inductive Detail where
  | msg (s : String)
  | backendRef (wid : Nat)
  deriving DecidableEq, Repr

/-- The JSON object built by `VirtualPlayer.sendNotice`:
`{type: 'matchmaker', queued: !this.stream, matched: !!this.stream, detail}`. -/
structure Notice where
  type : String
  queued : Bool
  matched : Bool
  detail : Detail
  deriving DecidableEq, Repr

/-- A `VirtualPlayer` session.  `connected` models the client websocket
being open (it becomes false when the client leg closes and `disconnect()`
runs); `stream` holds the worker id of the worker-leg socket, if any;
`allocFree` records the workers for which a `freeServer` closure was
registered via `.on('disconnect', freeServer)` in `assignPlayer` (these
handlers accumulate and all run when the player disconnects); `notices`
records every notice sent on the client leg, in order. -/
structure Session where
  sid : Nat
  connected : Bool
  stream : Option Nat
  allocFree : List Nat
  notices : List Notice
  deriving DecidableEq, Repr

/-- The whole gateway state: the worker pool, every session created so far,
the waiting queue (ordered session ids, no duplicates), the next fresh
session id, and the `DEBUG` flag captured at construction. -/
structure GState where
  pool : List Worker
  sessions : List Session
  queue : List Nat
  nextSid : Nat
  debug : Bool
  deriving DecidableEq, Repr

/-- Source `sendNotice(detail)`: appends
`{type:'matchmaker', queued: !this.stream, matched: !!this.stream, detail}`
to the messages sent on the client leg. -/
def Session.sendNotice (p : Session) (d : Detail) : Session :=
  { p with notices := p.notices ++
      [{ type := "matchmaker", queued := p.stream.isNone,
         matched := p.stream.isSome, detail := d }] }

/-- Source `VirtualPlayer` constructor: a fresh session with the client leg
open and no worker leg, which immediately sends the waiting notice
(`this.sendNotice('Waiting for available streamer')`). -/
def mkVirtualPlayer (sid : Nat) : Session :=
  Session.sendNotice
    { sid := sid, connected := true, stream := none, allocFree := [], notices := [] }
    (Detail.msg "Waiting for available streamer")

/-- Eligibility test from `nextAvailable`, in source order:
`server.numConnectedClients === 0 && !server.allocated &&
 server.lastPingReceived >= Date.now() - 6e4 &&
 (server.ready === true || this._debug)`. -/
def eligible (debug : Bool) (now : Int) (w : Worker) : Bool :=
  w.numConnectedClients == 0 && !w.allocated &&
    decide (now - 60000 ≤ w.lastPingReceived) && (w.ready || debug)

/-- Source `nextAvailable()`: first pool record (pool iteration order)
passing the eligibility test; `none` when the loop falls through. -/
def nextAvailable (st : GState) (now : Int) : Option Worker :=
  st.pool.find? (eligible st.debug now)

/-- Look a session up by id (the first one, mirroring object identity). -/
def findSession (st : GState) (sid : Nat) : Option Session :=
  st.sessions.find? (fun p => p.sid == sid)

/-- Apply `f` to the session(s) with id `sid`, in place. -/
def updateSession (st : GState) (sid : Nat) (f : Session → Session) : GState :=
  { st with sessions := st.sessions.map (fun p => if p.sid == sid then f p else p) }

/-- Apply `f` to the pool record(s) with id `wid`, in place (mutation of
the shared record object). -/
def updateWorker (st : GState) (wid : Nat) (f : Worker → Worker) : GState :=
  { st with pool := st.pool.map (fun w => if w.wid == wid then f w else w) }

/-- `Set.add` on the waiting queue: appends unless already a member. -/
def addQueue (q : List Nat) (sid : Nat) : List Nat :=
  if sid ∈ q then q else q ++ [sid]

/-- The session update performed when a player is matched in
`assignPlayer`/`connectStreamer`: the worker leg is opened
(`this.stream = ss`), a `freeServer` closure for this worker is registered
on the player's `disconnect` signal, and `sendNotice(backend)` runs with
the stream now present. -/
def matchSession (w : Worker) (p : Session) : Session :=
  Session.sendNotice
    { p with stream := some w.wid, allocFree := p.allocFree ++ [w.wid] }
    (Detail.backendRef w.wid)

/-- Source `assignPlayer(player, server)`: removes the player from the
queue; then, only if the client websocket is still open, sets
`server.allocated = true`, registers the drop/disconnect/error handlers,
and connects the worker leg (which sends the matched notice). -/
def assignPlayer (st : GState) (sid : Nat) (w : Worker) : GState :=
  match findSession st sid with
  | none => { st with queue := st.queue.erase sid }
  | some p =>
    if p.connected then
      updateSession
        (updateWorker { st with queue := st.queue.erase sid } w.wid
          (fun wr => { wr with allocated := true }))
        sid (matchSession w)
    else { st with queue := st.queue.erase sid }

/-- The queue loop of `connectWaitingPlayers`, iterating over a snapshot of
the queue: for each waiting player, scan for an available worker; stop at
the first player for which none exists, otherwise assign and continue. -/
def drainLoop (now : Int) : GState → List Nat → GState
  | st, [] => st
  | st, sid :: rest =>
    match nextAvailable st now with
    | none => st
    | some w => drainLoop now (assignPlayer st sid w) rest

/-- Source `connectWaitingPlayers()` (the `if (size)` guard only affects
logging: draining an empty queue is a no-op either way). -/
def connectWaitingPlayers (st : GState) (now : Int) : GState :=
  drainLoop now st st.queue

/-- Source `onClientConnection(ws)`, enqueue part: wrap the connection in
a new `VirtualPlayer` and add it to the waiting queue. -/
def enqueueState (st : GState) : GState :=
  { st with sessions := st.sessions ++ [mkVirtualPlayer st.nextSid],
            queue := addQueue st.queue st.nextSid,
            nextSid := st.nextSid + 1 }

/-- Source `onClientConnection(ws)` drain call: after enqueueing, process
the waitlist. -/
def onClientConnection (st : GState) (now : Int) : GState :=
  connectWaitingPlayers (enqueueState st) now

/-- Source `handleStreamerClose` plus the gateway's registered `drop`
handler: `this.stream = null`, then the drop handler re-queues the player
when the client leg is still open, then `sendNotice('Streamer dropped')`
(sent with the stream already cleared).  Note that neither this handler
nor the drop handler touches `server.allocated`.  `dropSession` is the
per-session effect: clear the stream, then send the drop notice. -/
def dropSession (q : Session) : Session :=
  Session.sendNotice { q with stream := none } (Detail.msg "Streamer dropped")

def handleStreamerClose (st : GState) (sid : Nat) : GState :=
  match findSession st sid with
  | none => st
  | some p =>
    if p.stream.isSome then
      if p.connected then
        { updateSession st sid dropSession with queue := addQueue st.queue sid }
      else updateSession st sid dropSession
    else st

/-- An `error` on the worker-leg socket: the per-assignment
`.on('error', freeServer)` handler clears the worker's allocation, and the
errored socket then closes, firing `handleStreamerClose` (in the `ws`
client library an errored socket is torn down and emits `close`). -/
def handleStreamerError (st : GState) (sid : Nat) : GState :=
  match findSession st sid with
  | none => st
  | some p =>
    match p.stream with
    | none => st
    | some wid =>
      handleStreamerClose
        (updateWorker st wid (fun w => { w with allocated := false })) sid

/-- Run every `freeServer` closure accumulated on a player: each one sets
its captured worker's `allocated` flag back to false. -/
def freeAll (st : GState) (ws : List Nat) : GState :=
  ws.foldl (fun s wid => updateWorker s wid (fun w => { w with allocated := false })) st

/-- Client-leg close: `clearInterval(hb); this.disconnect()`.  The
`disconnect` emit runs its handlers in registration order — the gateway's
`queue.delete(player)` first, then every accumulated `freeServer` closure
— after which both legs are closed (the worker-leg close event, if any,
arrives later as a separate `handleStreamerClose`). -/
def disconnect (st : GState) (sid : Nat) : GState :=
  match findSession st sid with
  | none => st
  | some p =>
    if p.connected then
      updateSession (freeAll { st with queue := st.queue.erase sid } p.allocFree) sid
        (fun q => { q with connected := false })
    else st

/-- Number of client websockets currently open on the websocket server
(`wss.clients.size`): every connected session, waiting or matched. -/
def connectedClients (st : GState) : Nat :=
  (st.sessions.filter (fun p => p.connected)).length

/-- Number of pool records with `ready === true` (the gauge's `poolSize`). -/
def readyCount (st : GState) : Nat :=
  (st.pool.filter (fun w => w.ready)).length

/-- The `streamer_demand_ratio` gauge's collect callback:
`players = wss.clients.size`, `poolSize = |filter ready|`, value
`poolSize > 0 ? players/poolSize : (players > 0 ? players + 1 : 0)`.
JS number division is modelled by exact rational division. -/
def streamerDemandGauge (st : GState) : Rat :=
  let players : Nat := (st.sessions.filter (fun p => p.connected)).length
  let poolSize : Nat := (st.pool.filter (fun w => w.ready)).length
  if poolSize > 0 then (players : Rat) / (poolSize : Rat)
  else if players > 0 then (players : Rat) + 1 else 0

/-- Modelled from the spec words for comparison: the demand ratio with
`waitingClients` taken as the number of clients currently waiting for a
worker (the waiting queue), as §4.1 of the spec describes it. -/
def specDemandGauge (st : GState) : Rat :=
  let waiting : Nat := st.queue.length
  let poolSize : Nat := (st.pool.filter (fun w => w.ready)).length
  if poolSize > 0 then (waiting : Rat) / (poolSize : Rat)
  else if waiting > 0 then (waiting : Rat) + 1 else 0

/-- In JS, `!x` yields a primitive boolean, and `primitive instanceof C`
is `false` for every constructor `C` (`instanceof` requires an object). -/
def boolInstanceof (_b : Bool) : Bool := false

/-- Truthiness/instance facts about the four constructor arguments. -/
structure GatewayOptions where
  serverIsHttpServer : Bool
  matchmakerIsNetServer : Bool
  poolTruthy : Bool
  metricsTruthy : Bool
  deriving DecidableEq, Repr

/-- The `PlayerConnectionGateway` constructor's synchronous behaviour,
operator precedence included: the first two checks are
`!(x instanceof C)`, but the last two are written
`!pool instanceof Map` / `!metrics instanceof MetricsAdapter`, which
parse as `(!pool) instanceof Map` etc. and so never throw.  The remainder
of the constructor body then runs: the pool/queue/wss assignments and the
listener registrations cannot throw (server and matchmaker were genuinely
validated), and the first dereference of the metrics sink —
`metrics.instrumentSocketServer(wss, 'player')` — throws a synchronous
TypeError when the sink is absent.  The pool is never dereferenced during
construction: the gauge collect callbacks that read it run only when the
metrics sink is scraped. -/
def constructGateway (o : GatewayOptions) : Except String Unit :=
  if !o.serverIsHttpServer then
    Except.error "Http server is required for PlayerConnectionGateway"
  else if !o.matchmakerIsNetServer then
    Except.error "Matchmaker server is required for PlayerConnectionGateway"
  else if boolInstanceof (!o.poolTruthy) then
    Except.error "A streamer availability pool is required"
  else if boolInstanceof (!o.metricsTruthy) then
    Except.error "Metrics adapter instance is required"
  else if !o.metricsTruthy then
    Except.error "TypeError: cannot read properties of undefined (reading instrumentSocketServer)"
  else Except.ok ()

/-- Client-leg heartbeat state: `ws.alive`, whether `ws.terminate()` has
been called, and the number of pings sent. -/
structure ClientWs where
  alive : Bool
  terminated : Bool
  pings : Nat
  deriving DecidableEq, Repr

/-- Source `_clientHeartbeat()`, run at each 30-second interval tick:
`if (!ws.alive) return ws.terminate(); else { ws.alive = false; ws.ping(); }`. -/
def clientHeartbeat (ws : ClientWs) : ClientWs :=
  if !ws.alive then { ws with terminated := true }
  else { ws with alive := false, pings := ws.pings + 1 }

/-- Source pong handler: `ws.on('pong', () => this.ws.alive = true)`. -/
def onPong (ws : ClientWs) : ClientWs := { ws with alive := true }

/-- The gateway's initial state: the shared pool (records are created by
the external collaborator, not yet allocated), no sessions, empty queue. -/
def initState (pool : List Worker) (debug : Bool) : GState :=
  { pool := pool, sessions := [], queue := [], nextSid := 0, debug := debug }

/-- External mutation of the pool by the collaborator that owns it: it may
rewrite readiness, client counts, heartbeat timestamps and addresses, but
the `allocated` flag is written only by the gateway, and record identity
is stable. -/
def PoolSkeleton (p p' : List Worker) : Prop :=
  List.Forall₂ (fun a b => a.wid = b.wid ∧ a.allocated = b.allocated) p p'

/-- One asynchronous event delivered to the gateway. -/
inductive Step : GState → GState → Prop where
  | clientConnect (st : GState) (now : Int) : Step st (onClientConnection st now)
  | streamerData (st : GState) (now : Int) : Step st (connectWaitingPlayers st now)
  | workerClose (st : GState) (sid : Nat) : Step st (handleStreamerClose st sid)
  | workerError (st : GState) (sid : Nat) : Step st (handleStreamerError st sid)
  | clientClose (st : GState) (sid : Nat) : Step st (disconnect st sid)
  | poolExt (st : GState) (pool' : List Worker) (h : PoolSkeleton st.pool pool') :
      Step st { st with pool := pool' }

/-- States reachable through the gateway's event handlers from a freshly
constructed gateway over an unallocated pool. -/
inductive Reachable : GState → Prop where
  | init (pool : List Worker) (debug : Bool)
      (h : ∀ w ∈ pool, w.allocated = false) :
      Reachable (initState pool debug)
  | step {st st' : GState} : Reachable st → Step st st' → Reachable st'

/-- The gateway's structural invariants: the waiting queue holds no
duplicates and only issued session ids; session ids are unique and below
the id counter; a session is queued exactly when it has no worker leg and
its client leg is open; and every notice ever sent has `matched`
equal to the negation of `queued`. -/
structure GwInv (st : GState) : Prop where
  qNodup : st.queue.Nodup
  qFresh : ∀ sid ∈ st.queue, sid < st.nextSid
  sNodup : (st.sessions.map Session.sid).Nodup
  sFresh : ∀ p ∈ st.sessions, p.sid < st.nextSid
  queueIff : ∀ p ∈ st.sessions, (p.sid ∈ st.queue ↔ (p.stream = none ∧ p.connected = true))
  noticesOk : ∀ p ∈ st.sessions, ∀ n ∈ p.notices, n.matched = !n.queued

/-- A ready, live, unallocated worker with no connected clients. -/
def liveWorker : Worker :=
  { wid := 0, address := "10.0.0.5", port := 9000, ready := true,
    allocated := false, numConnectedClients := 0, lastPingReceived := 0 }

/-- The same worker before it reports readiness. -/
def offlineWorker : Worker := { liveWorker with ready := false }

/-- One client connected against a pool holding the single live worker:
the drain matches it immediately. -/
def matchedState : GState := onClientConnection (initState [liveWorker] false) 0

/-- Event trace exhibiting a stale `freeServer` closure:
player 0 is matched to worker 0, player 1 queues behind it; worker 0's
leg to player 0 errors (freeing worker 0, re-queuing player 0); a drain
hands worker 0 to player 1; player 0 then disconnects, and its stale
`freeServer` closure clears worker 0's allocation even though player 1
holds it; a third client then gets worker 0 assigned again. -/
def doubleAllocState : GState :=
  onClientConnection
    (disconnect
      (connectWaitingPlayers
        (handleStreamerError (onClientConnection matchedState 0) 0) 0) 0) 0

/-- One client waiting against an empty pool. -/
def singleWaitingState : GState := onClientConnection (initState [] false) 0

/-- Three clients queued against a pool whose only worker is not yet
ready, after which the worker (externally) turns ready: exactly one
eligible worker, three waiting sessions. -/
def fifoState : GState :=
  { onClientConnection
      (onClientConnection (onClientConnection (initState [offlineWorker] false) 0) 0) 0
    with pool := [liveWorker] }

/-- A notice built by `sendNotice` always has `matched = !queued`: both are
derived from the presence of the stream handle at send time. -/
theorem sendNotice_fields (p : Session) (d : Detail) :
    (Session.sendNotice p d).notices
      = p.notices ++ [{ type := "matchmaker", queued := p.stream.isNone,
                        matched := p.stream.isSome, detail := d }] := rfl

theorem sendNotice_sid (p : Session) (d : Detail) : (Session.sendNotice p d).sid = p.sid := rfl

theorem matchSession_sid (w : Worker) (p : Session) : (matchSession w p).sid = p.sid := rfl

theorem isSome_eq_not_isNone (o : Option Nat) : o.isSome = !o.isNone := by
  cases o <;> rfl

/-- `find?` returns the head of the filtered list. -/
theorem find?_eq_head?_filter {α : Type} (l : List α) (p : α → Bool) :
    l.find? p = (l.filter p).head? := by
  induction l with
  | nil => rfl
  | cons a l ih =>
    rw [List.find?_cons, List.filter_cons]
    cases h : p a
    · rw [ih]
      rfl
    · rfl

theorem mem_addQueue (q : List Nat) (s a : Nat) :
    a ∈ addQueue q s ↔ a ∈ q ∨ a = s := by
  unfold addQueue
  split
  · rename_i h
    constructor
    · exact fun ha => Or.inl ha
    · rintro (ha | rfl)
      · exact ha
      · exact h
  · simp

theorem addQueue_nodup (q : List Nat) (s : Nat) (h : q.Nodup) :
    (addQueue q s).Nodup := by
  unfold addQueue
  split
  · exact h
  · rename_i hs
    rw [List.nodup_append]
    exact ⟨h, List.nodup_singleton s, by simpa using fun hmem => hs hmem⟩

/-- Updating the session with a given id leaves the map of session ids
unchanged, provided the update preserves the id. -/
theorem updateSession_sids (st : GState) (sid : Nat) (f : Session → Session)
    (hf : ∀ p, (f p).sid = p.sid) :
    (updateSession st sid f).sessions.map Session.sid = st.sessions.map Session.sid := by
  unfold updateSession
  simp only [List.map_map]
  apply List.map_congr_left
  intro p _
  by_cases h : p.sid = sid
  · simp [Function.comp, h, hf]
  · simp [Function.comp, h]

/-- Looking up the updated session yields the update applied to the old
value, provided the update preserves the id. -/
theorem find?_map_update (l : List Session) (sid : Nat) (f : Session → Session)
    (hf : ∀ p, (f p).sid = p.sid) :
    (l.map (fun p => if p.sid == sid then f p else p)).find? (fun p => p.sid == sid)
      = (l.find? (fun p => p.sid == sid)).map f := by
  induction l with
  | nil => rfl
  | cons p rest ih =>
    by_cases h : p.sid = sid
    · have hb : (p.sid == sid) = true := by simpa using h
      have hb2 : ((f p).sid == sid) = true := by simpa [hf] using h
      rw [List.map_cons, List.find?_cons, List.find?_cons, if_pos hb, hb2, hb]
      rfl
    · have hb : (p.sid == sid) = false := by simpa using h
      have hb' : ¬((p.sid == sid) = true) := by simp [hb]
      rw [List.map_cons, List.find?_cons, List.find?_cons, if_neg hb', hb, ih]

theorem findSession_updateSession (st : GState) (sid : Nat) (f : Session → Session)
    (hf : ∀ p, (f p).sid = p.sid) :
    findSession (updateSession st sid f) sid = (findSession st sid).map f :=
  find?_map_update st.sessions sid f hf

theorem freeAll_sessions (ws : List Nat) (st : GState) :
    (freeAll st ws).sessions = st.sessions := by
  induction ws generalizing st with
  | nil => rfl
  | cons a ws ih => exact ih _

theorem freeAll_queue (ws : List Nat) (st : GState) :
    (freeAll st ws).queue = st.queue := by
  induction ws generalizing st with
  | nil => rfl
  | cons a ws ih => exact ih _

theorem freeAll_nextSid (ws : List Nat) (st : GState) :
    (freeAll st ws).nextSid = st.nextSid := by
  induction ws generalizing st with
  | nil => rfl
  | cons a ws ih => exact ih _

theorem updateSession_queue (st : GState) (sid : Nat) (f : Session → Session) :
    (updateSession st sid f).queue = st.queue := rfl

theorem updateSession_nextSid (st : GState) (sid : Nat) (f : Session → Session) :
    (updateSession st sid f).nextSid = st.nextSid := rfl

theorem updateWorker_sessions (st : GState) (wid : Nat) (f : Worker → Worker) :
    (updateWorker st wid f).sessions = st.sessions := rfl

theorem updateWorker_queue (st : GState) (wid : Nat) (f : Worker → Worker) :
    (updateWorker st wid f).queue = st.queue := rfl

theorem updateWorker_nextSid (st : GState) (wid : Nat) (f : Worker → Worker) :
    (updateWorker st wid f).nextSid = st.nextSid := rfl

/-- A session found by id has that id and is a member of the session list. -/
theorem findSession_spec {st : GState} {sid : Nat} {p : Session}
    (h : findSession st sid = some p) : p ∈ st.sessions ∧ p.sid = sid := by
  refine ⟨List.mem_of_find?_eq_some h, ?_⟩
  have := List.find?_some h
  simpa using this

/-- With unique session ids, equal ids give equal sessions. -/
theorem session_unique {st : GState} (hInv : GwInv st) {p q : Session}
    (hp : p ∈ st.sessions) (hq : q ∈ st.sessions) (h : p.sid = q.sid) : p = q :=
  List.inj_on_of_nodup_map hInv.sNodup hp hq h

/-- Assigning the player at the head of the queue preserves the invariants
and pops the head. -/
theorem assignPlayer_inv {st : GState} {sid : Nat} {rest : List Nat} (w : Worker)
    (hq : st.queue = sid :: rest) (hInv : GwInv st) :
    GwInv (assignPlayer st sid w) ∧ (assignPlayer st sid w).queue = rest := by
  have hqe : st.queue.erase sid = rest := by rw [hq]; exact List.erase_cons_head sid rest
  have hrest_nodup : rest.Nodup := by have h := hInv.qNodup; rw [hq] at h; exact h.of_cons
  have hsid_rest : sid ∉ rest := by
    have h := hInv.qNodup; rw [hq] at h; exact (List.nodup_cons.mp h).1
  have hrest_fresh : ∀ x ∈ rest, x < st.nextSid := fun x hx =>
    hInv.qFresh x (by rw [hq]; exact List.mem_cons_of_mem _ hx)
  unfold assignPlayer
  cases hfind : findSession st sid with
  | none =>
    have hnone : ∀ q ∈ st.sessions, q.sid ≠ sid := by
      intro q hqmem
      have := List.find?_eq_none.mp hfind q hqmem
      simpa using this
    refine ⟨⟨by simpa [hqe] using hrest_nodup, by simpa [hqe] using hrest_fresh,
      hInv.sNodup, hInv.sFresh, ?_, hInv.noticesOk⟩, by simp [hqe]⟩
    intro p hp
    have hne : p.sid ≠ sid := hnone p hp
    have hold := hInv.queueIff p hp
    rw [hq] at hold
    simpa [hqe, List.mem_cons, hne] using hold
  | some p =>
    obtain ⟨hp_mem, hp_sid⟩ := findSession_spec hfind
    have hmemq : p.sid ∈ st.queue := by rw [hq, hp_sid]; exact List.mem_cons_self _ _
    obtain ⟨hstream, hconn⟩ := (hInv.queueIff p hp_mem).mp hmemq
    dsimp only
    rw [if_pos hconn]
    refine ⟨⟨?_, ?_, ?_, ?_, ?_, ?_⟩, ?_⟩
    · simpa [updateSession_queue, updateWorker_queue, hqe] using hrest_nodup
    · simpa [updateSession_queue, updateWorker_queue, updateSession_nextSid,
        updateWorker_nextSid, hqe] using hrest_fresh
    · rw [updateSession_sids _ _ _ (matchSession_sid w)]
      exact hInv.sNodup
    · intro p' hp'
      rw [updateSession_nextSid, updateWorker_nextSid]
      obtain ⟨q, hq_mem, rfl⟩ := List.mem_map.mp hp'
      by_cases hcase : q.sid = sid
      · have hb : (q.sid == sid) = true := by simpa using hcase
        simpa [hb, matchSession_sid] using hInv.sFresh q hq_mem
      · have hb : (q.sid == sid) = false := by simpa using hcase
        simpa [hb] using hInv.sFresh q hq_mem
    · intro p' hp'
      rw [updateSession_queue, updateWorker_queue]
      obtain ⟨q, hq_mem, rfl⟩ := List.mem_map.mp hp'
      by_cases hcase : q.sid = sid
      · have hb : (q.sid == sid) = true := by simpa using hcase
        have hgoal : sid ∉ rest := hsid_rest
        simp only [hb, if_true]
        constructor
        · intro hmem
          exact absurd (by simpa [hqe, matchSession_sid, hcase] using hmem) hgoal
        · rintro ⟨hnone2, -⟩
          exact absurd hnone2 (by simp [matchSession, Session.sendNotice])
      · have hb : (q.sid == sid) = false := by simpa using hcase
        have hold := hInv.queueIff q hq_mem
        rw [hq] at hold
        simpa [hb, hqe, List.mem_cons, hcase] using hold
    · intro p' hp' n hn
      obtain ⟨q, hq_mem, rfl⟩ := List.mem_map.mp hp'
      by_cases hcase : q.sid = sid
      · have hb : (q.sid == sid) = true := by simpa using hcase
        rw [hb] at hn
        simp only [if_true] at hn
        have hn2 : n ∈ q.notices ∨
            n = { type := "matchmaker", queued := false, matched := true,
                  detail := Detail.backendRef w.wid } := by
          simpa [matchSession, Session.sendNotice] using hn
        rcases hn2 with hold | rfl
        · exact hInv.noticesOk q hq_mem n hold
        · rfl
      · have hb : (q.sid == sid) = false := by simpa using hcase
        rw [hb] at hn
        simp only [Bool.false_eq_true, if_false] at hn
        exact hInv.noticesOk q hq_mem n hn
    · simp [updateSession_queue, updateWorker_queue, hqe]

/-- Draining the queue snapshot preserves the invariants. -/
theorem drainLoop_inv (now : Int) :
    ∀ (pending : List Nat) (st : GState), GwInv st → st.queue = pending →
      GwInv (drainLoop now st pending) := by
  intro pending
  induction pending with
  | nil => intro st h _; exact h
  | cons sid rest ih =>
    intro st hInv hq
    unfold drainLoop
    cases hna : nextAvailable st now with
    | none => exact hInv
    | some w =>
      obtain ⟨h1, h2⟩ := assignPlayer_inv w hq hInv
      exact ih _ h1 h2

theorem connectWaitingPlayers_inv (st : GState) (now : Int) (hInv : GwInv st) :
    GwInv (connectWaitingPlayers st now) :=
  drainLoop_inv now st.queue st hInv rfl

theorem enqueueState_inv (st : GState) (hInv : GwInv st) : GwInv (enqueueState st) := by
  have hfresh_q : st.nextSid ∉ st.queue := fun hmem =>
    lt_irrefl _ (hInv.qFresh _ hmem)
  refine ⟨?_, ?_, ?_, ?_, ?_, ?_⟩
  · exact addQueue_nodup _ _ hInv.qNodup
  · intro x hx
    rcases (mem_addQueue _ _ _).mp hx with hmem | rfl
    · exact Nat.lt_succ_of_lt (hInv.qFresh x hmem)
    · exact Nat.lt_succ_self _
  · have : (enqueueState st).sessions.map Session.sid
        = st.sessions.map Session.sid ++ [st.nextSid] := by
      simp [enqueueState, mkVirtualPlayer, Session.sendNotice]
    rw [this, List.nodup_append]
    refine ⟨hInv.sNodup, List.nodup_singleton _, ?_⟩
    intro x hx hx2
    rw [List.mem_singleton.mp hx2] at hx
    obtain ⟨q, hq_mem, hq_sid⟩ := List.mem_map.mp hx
    exact lt_irrefl _ (hq_sid ▸ hInv.sFresh q hq_mem)
  · intro p hp
    rcases List.mem_append.mp hp with hmem | hnew
    · exact Nat.lt_succ_of_lt (hInv.sFresh p hmem)
    · rw [List.mem_singleton.mp hnew]
      exact Nat.lt_succ_self _
  · intro p hp
    rcases List.mem_append.mp hp with hmem | hnew
    · have hne : p.sid ≠ st.nextSid := fun h =>
        lt_irrefl _ (h ▸ hInv.sFresh p hmem)
      have : p.sid ∈ addQueue st.queue st.nextSid ↔ p.sid ∈ st.queue := by
        rw [mem_addQueue]
        exact or_iff_left hne
      rw [show (enqueueState st).queue = addQueue st.queue st.nextSid from rfl, this]
      exact hInv.queueIff p hmem
    · rw [List.mem_singleton.mp hnew]
      have : (mkVirtualPlayer st.nextSid).sid ∈ addQueue st.queue st.nextSid := by
        rw [mem_addQueue]
        exact Or.inr rfl
      simpa [mkVirtualPlayer, Session.sendNotice] using this
  · intro p hp n hn
    rcases List.mem_append.mp hp with hmem | hnew
    · exact hInv.noticesOk p hmem n hn
    · rw [List.mem_singleton.mp hnew] at hn
      have : n = { type := "matchmaker", queued := true, matched := false,
                   detail := Detail.msg "Waiting for available streamer" } := by
        simpa [mkVirtualPlayer, Session.sendNotice] using hn
      rw [this]
      rfl

theorem onClientConnection_inv (st : GState) (now : Int) (hInv : GwInv st) :
    GwInv (onClientConnection st now) :=
  connectWaitingPlayers_inv _ now (enqueueState_inv st hInv)

theorem dropSession_sid (q : Session) : (dropSession q).sid = q.sid := rfl

theorem dropSession_stream (q : Session) : (dropSession q).stream = none := rfl

theorem dropSession_connected (q : Session) : (dropSession q).connected = q.connected := rfl

theorem updateWorker_inv (st : GState) (wid : Nat) (f : Worker → Worker) (hInv : GwInv st) :
    GwInv (updateWorker st wid f) :=
  ⟨hInv.qNodup, hInv.qFresh, hInv.sNodup, hInv.sFresh, hInv.queueIff, hInv.noticesOk⟩

/-- The worker-leg close handler preserves the invariants. -/
theorem handleStreamerClose_inv (st : GState) (sid : Nat) (hInv : GwInv st) :
    GwInv (handleStreamerClose st sid) := by
  unfold handleStreamerClose
  cases hfind : findSession st sid with
  | none => exact hInv
  | some p =>
    obtain ⟨hp_mem, hp_sid⟩ := findSession_spec hfind
    dsimp only
    by_cases hs : p.stream.isSome = true
    case neg => rw [if_neg hs]; exact hInv
    rw [if_pos hs]
    have hnq : sid ∉ st.queue := by
      intro hmem
      obtain ⟨hstream, -⟩ := (hInv.queueIff p hp_mem).mp (by rw [hp_sid]; exact hmem)
      rw [hstream] at hs
      exact Bool.noConfusion hs
    have hsid_fresh : sid < st.nextSid := hp_sid ▸ hInv.sFresh p hp_mem
    by_cases hc : p.connected = true
    · rw [if_pos hc]
      refine ⟨?_, ?_, ?_, ?_, ?_, ?_⟩
      · exact addQueue_nodup _ _ hInv.qNodup
      · intro x hx
        rcases (mem_addQueue _ _ _).mp hx with hmem | rfl
        · exact hInv.qFresh x hmem
        · exact hsid_fresh
      · rw [show ({ updateSession st sid dropSession with
            queue := addQueue st.queue sid } : GState).sessions
            = (updateSession st sid dropSession).sessions from rfl]
        rw [updateSession_sids _ _ _ dropSession_sid]
        exact hInv.sNodup
      · intro p' hp'
        obtain ⟨q, hq_mem, rfl⟩ := List.mem_map.mp hp'
        by_cases hcase : q.sid = sid
        · have hb : (q.sid == sid) = true := by simpa using hcase
          simpa [hb, dropSession_sid] using hInv.sFresh q hq_mem
        · have hb : (q.sid == sid) = false := by simpa using hcase
          simpa [hb] using hInv.sFresh q hq_mem
      · intro p' hp'
        obtain ⟨q, hq_mem, rfl⟩ := List.mem_map.mp hp'
        by_cases hcase : q.sid = sid
        · have hb : (q.sid == sid) = true := by simpa using hcase
          have hqp : q = p := session_unique hInv hq_mem hp_mem (by rw [hcase, hp_sid])
          simp only [hb, if_true]
          constructor
          · intro _
            exact ⟨dropSession_stream q, by rw [dropSession_connected, hqp]; exact hc⟩
          · intro _
            rw [dropSession_sid, hcase]
            exact (mem_addQueue _ _ _).mpr (Or.inr rfl)
        · have hb : (q.sid == sid) = false := by simpa using hcase
          have hold := hInv.queueIff q hq_mem
          simp only [hb, Bool.false_eq_true, if_false]
          rw [mem_addQueue, or_iff_left hcase]
          exact hold
      · intro p' hp' n hn
        obtain ⟨q, hq_mem, rfl⟩ := List.mem_map.mp hp'
        by_cases hcase : q.sid = sid
        · have hb : (q.sid == sid) = true := by simpa using hcase
          rw [hb] at hn
          simp only [if_true] at hn
          have hn2 : n ∈ q.notices ∨
              n = { type := "matchmaker", queued := true, matched := false,
                    detail := Detail.msg "Streamer dropped" } := by
            simpa [dropSession, Session.sendNotice] using hn
          rcases hn2 with hold | rfl
          · exact hInv.noticesOk q hq_mem n hold
          · rfl
        · have hb : (q.sid == sid) = false := by simpa using hcase
          rw [hb] at hn
          simp only [Bool.false_eq_true, if_false] at hn
          exact hInv.noticesOk q hq_mem n hn
    · rw [if_neg hc]
      refine ⟨hInv.qNodup, hInv.qFresh, ?_, ?_, ?_, ?_⟩
      · rw [updateSession_sids _ _ _ dropSession_sid]
        exact hInv.sNodup
      · intro p' hp'
        obtain ⟨q, hq_mem, rfl⟩ := List.mem_map.mp hp'
        by_cases hcase : q.sid = sid
        · have hb : (q.sid == sid) = true := by simpa using hcase
          simpa [hb, dropSession_sid] using hInv.sFresh q hq_mem
        · have hb : (q.sid == sid) = false := by simpa using hcase
          simpa [hb] using hInv.sFresh q hq_mem
      · intro p' hp'
        obtain ⟨q, hq_mem, rfl⟩ := List.mem_map.mp hp'
        by_cases hcase : q.sid = sid
        · have hb : (q.sid == sid) = true := by simpa using hcase
          have hqp : q = p := session_unique hInv hq_mem hp_mem (by rw [hcase, hp_sid])
          simp only [hb, if_true]
          constructor
          · intro hmem
            rw [updateSession_queue] at hmem
            rw [dropSession_sid, hcase] at hmem
            exact absurd hmem hnq
          · rintro ⟨-, hconn2⟩
            rw [dropSession_connected, hqp] at hconn2
            exact absurd hconn2 hc
        · have hb : (q.sid == sid) = false := by simpa using hcase
          simp only [hb, Bool.false_eq_true, if_false]
          rw [updateSession_queue]
          exact hInv.queueIff q hq_mem
      · intro p' hp' n hn
        obtain ⟨q, hq_mem, rfl⟩ := List.mem_map.mp hp'
        by_cases hcase : q.sid = sid
        · have hb : (q.sid == sid) = true := by simpa using hcase
          rw [hb] at hn
          simp only [if_true] at hn
          have hn2 : n ∈ q.notices ∨
              n = { type := "matchmaker", queued := true, matched := false,
                    detail := Detail.msg "Streamer dropped" } := by
            simpa [dropSession, Session.sendNotice] using hn
          rcases hn2 with hold | rfl
          · exact hInv.noticesOk q hq_mem n hold
          · rfl
        · have hb : (q.sid == sid) = false := by simpa using hcase
          rw [hb] at hn
          simp only [Bool.false_eq_true, if_false] at hn
          exact hInv.noticesOk q hq_mem n hn

theorem handleStreamerError_inv (st : GState) (sid : Nat) (hInv : GwInv st) :
    GwInv (handleStreamerError st sid) := by
  unfold handleStreamerError
  cases hfind : findSession st sid with
  | none => exact hInv
  | some p =>
    dsimp only
    cases hs : p.stream with
    | none => exact hInv
    | some wid => exact handleStreamerClose_inv _ _ (updateWorker_inv st wid _ hInv)

/-- The client-leg close handler preserves the invariants. -/
theorem disconnect_inv (st : GState) (sid : Nat) (hInv : GwInv st) :
    GwInv (disconnect st sid) := by
  unfold disconnect
  cases hfind : findSession st sid with
  | none => exact hInv
  | some p =>
    obtain ⟨hp_mem, hp_sid⟩ := findSession_spec hfind
    dsimp only
    by_cases hc : p.connected = true
    case neg => rw [if_neg hc]; exact hInv
    rw [if_pos hc]
    have hsess : ∀ (X : GState),
        (updateSession X sid (fun q => { q with connected := false })).sessions
          = X.sessions.map (fun q => if q.sid == sid then { q with connected := false } else q) :=
      fun X => rfl
    refine ⟨?_, ?_, ?_, ?_, ?_, ?_⟩
    · rw [updateSession_queue, freeAll_queue]
      exact hInv.qNodup.erase sid
    · intro x hx
      rw [updateSession_queue, freeAll_queue] at hx
      rw [updateSession_nextSid, freeAll_nextSid]
      exact hInv.qFresh x (List.mem_of_mem_erase hx)
    · rw [updateSession_sids _ sid (fun q => { q with connected := false }) (fun q => rfl),
        freeAll_sessions]
      exact hInv.sNodup
    · intro p' hp'
      rw [hsess, freeAll_sessions] at hp'
      rw [updateSession_nextSid, freeAll_nextSid]
      obtain ⟨q, hq_mem, rfl⟩ := List.mem_map.mp hp'
      by_cases hcase : q.sid = sid
      · have hb : (q.sid == sid) = true := by simpa using hcase
        simpa [hb] using hInv.sFresh q hq_mem
      · have hb : (q.sid == sid) = false := by simpa using hcase
        simpa [hb] using hInv.sFresh q hq_mem
    · intro p' hp'
      rw [hsess, freeAll_sessions] at hp'
      rw [updateSession_queue, freeAll_queue]
      obtain ⟨q, hq_mem, rfl⟩ := List.mem_map.mp hp'
      by_cases hcase : q.sid = sid
      · have hb : (q.sid == sid) = true := by simpa using hcase
        simp only [hb, if_true]
        constructor
        · intro hmem
          have : (q.sid : Nat) ∈ st.queue.erase sid := by simpa using hmem
          rw [hcase] at this
          exact absurd rfl ((hInv.qNodup.mem_erase_iff.mp this).1)
        · rintro ⟨-, hconn2⟩
          exact Bool.noConfusion hconn2
      · have hb : (q.sid == sid) = false := by simpa using hcase
        simp only [hb, Bool.false_eq_true, if_false]
        rw [List.mem_erase_of_ne hcase]
        exact hInv.queueIff q hq_mem
    · intro p' hp' n hn
      rw [hsess, freeAll_sessions] at hp'
      obtain ⟨q, hq_mem, rfl⟩ := List.mem_map.mp hp'
      by_cases hcase : q.sid = sid
      · have hb : (q.sid == sid) = true := by simpa using hcase
        rw [hb] at hn
        simp only [if_true] at hn
        exact hInv.noticesOk q hq_mem n hn
      · have hb : (q.sid == sid) = false := by simpa using hcase
        rw [hb] at hn
        simp only [Bool.false_eq_true, if_false] at hn
        exact hInv.noticesOk q hq_mem n hn

/-- Every state reachable through the event handlers satisfies the
structural invariants. -/
theorem reachable_inv {st : GState} (h : Reachable st) : GwInv st := by
  induction h with
  | init pool debug h =>
    refine ⟨?_, ?_, ?_, ?_, ?_, ?_⟩ <;> simp [initState]
  | step hr hstep ih =>
    cases hstep with
    | clientConnect now => exact onClientConnection_inv _ now ih
    | streamerData now => exact connectWaitingPlayers_inv _ now ih
    | workerClose sid => exact handleStreamerClose_inv _ sid ih
    | workerError sid => exact handleStreamerError_inv _ sid ih
    | clientClose sid => exact disconnect_inv _ sid ih
    | poolExt pool' hp =>
      exact ⟨ih.qNodup, ih.qFresh, ih.sNodup, ih.sFresh, ih.queueIff, ih.noticesOk⟩

theorem drainLoop_cons_none (now : Int) (st : GState) (sid : Nat) (rest : List Nat)
    (h : nextAvailable st now = none) : drainLoop now st (sid :: rest) = st := by
  unfold drainLoop
  rw [h]

theorem drainLoop_cons_some (now : Int) (st : GState) (sid : Nat) (rest : List Nat) (w : Worker)
    (h : nextAvailable st now = some w) :
    drainLoop now st (sid :: rest) = drainLoop now (assignPlayer st sid w) rest := by
  unfold drainLoop
  rw [h]
  cases rest <;> rfl

/-- Setting the allocation flag of the one eligible worker leaves no
eligible worker in the pool. -/
theorem eligible_updateWorker_alloc (d : Bool) (now : Int) (pool : List Worker) (w : Worker)
    (hf : pool.filter (eligible d now) = [w]) :
    (pool.map (fun x => if x.wid == w.wid then { x with allocated := true } else x)).filter
      (eligible d now) = [] := by
  rw [List.filter_eq_nil_iff]
  intro x hx
  obtain ⟨y, hy, rfl⟩ := List.mem_map.mp hx
  by_cases h : y.wid = w.wid
  · have hb : (y.wid == w.wid) = true := by simpa using h
    simp [hb, eligible]
  · have hb : (y.wid == w.wid) = false := by simpa using h
    rw [hb]
    simp only [Bool.false_eq_true, if_false]
    intro hel
    have hymem : y ∈ pool.filter (eligible d now) := List.mem_filter.mpr ⟨hy, hel⟩
    rw [hf] at hymem
    rw [List.mem_singleton.mp hymem] at h
    exact h rfl

/-- Claim C2 counterexample: a worker whose last heartbeat is exactly
60000 ms old is still returned by `nextAvailable` (the source check
`lastPingReceived >= Date.now() - 6e4` is inclusive), contradicting the
claimed strict bound `now - lastHeartbeatAt < 60000`. -/
theorem nextAvailable_boundary_counterexample :
    nextAvailable (initState [liveWorker] false) 60000 = some liveWorker ∧
      ¬((60000 : Int) - liveWorker.lastPingReceived < 60000) := by
  constructor
  · decide
  · decide

/-- Claim C2 (amended): `nextAvailable` returns only workers with zero
connected clients, allocation flag unset, a last heartbeat at most
60000 ms old (inclusive bound), and ready unless the debug override is
set; the override relaxes only the readiness conjunct, never the other
three checks. -/
theorem nextAvailable_eligibility (st : GState) (now : Int) (w : Worker)
    (h : nextAvailable st now = some w) :
    w.numConnectedClients = 0 ∧ w.allocated = false ∧
      now - w.lastPingReceived ≤ 60000 ∧ (w.ready = true ∨ st.debug = true) := by
  have hel := List.find?_some h
  unfold eligible at hel
  simp only [Bool.and_eq_true, beq_iff_eq, Bool.not_eq_true', decide_eq_true_eq,
    Bool.or_eq_true] at hel
  obtain ⟨⟨⟨h1, h2⟩, h3⟩, h4⟩ := hel
  exact ⟨h1, h2, by omega, h4⟩

/-- Claim C2 witness: the eligibility theorem applied to a concrete scan
that returns the live worker. -/
theorem nextAvailable_eligibility_witness :
    liveWorker.numConnectedClients = 0 ∧ liveWorker.allocated = false ∧
      (0 : Int) - liveWorker.lastPingReceived ≤ 60000 ∧
      (liveWorker.ready = true ∨ (initState [liveWorker] false).debug = true) :=
  nextAvailable_eligibility (initState [liveWorker] false) 0 liveWorker (by decide)

/-- Claim C6 (code defect): the constructor is meant to reject a missing
pool, but `!pool instanceof Map` parses as `(!pool) instanceof Map`,
which is false for every value, and nothing else in the constructor body
dereferences the pool synchronously — so with a valid server, matchmaker
and metrics sink but no pool, construction succeeds.  A missing metrics
sink, by contrast, still aborts construction, only through an accidental
TypeError at `metrics.instrumentSocketServer` rather than the intended
validation error. -/
theorem construct_missing_pool_ok :
    constructGateway { serverIsHttpServer := true, matchmakerIsNetServer := true,
                       poolTruthy := false, metricsTruthy := true } = Except.ok () ∧
    constructGateway { serverIsHttpServer := true, matchmakerIsNetServer := true,
                       poolTruthy := true, metricsTruthy := false }
      = Except.error
          "TypeError: cannot read properties of undefined (reading instrumentSocketServer)" :=
  ⟨rfl, rfl⟩

/-- Claim C8: at a heartbeat tick an unanswered probe terminates the leg;
an answered one sends a fresh probe and resets the answered flag; a pong
marks the probe answered; and a client that never answers is terminated
by the tick after the missed answer. -/
theorem client_heartbeat_protocol (ws : ClientWs) :
    (clientHeartbeat { ws with alive := false }).terminated = true ∧
    clientHeartbeat { ws with alive := true }
      = { ws with alive := false, pings := ws.pings + 1 } ∧
    (clientHeartbeat (clientHeartbeat ws)).terminated = true ∧
    (onPong ws).alive = true ∧
    (clientHeartbeat (onPong ws)).terminated = ws.terminated := by
  obtain ⟨a, t, k⟩ := ws
  cases a <;> exact ⟨rfl, rfl, rfl, rfl, rfl⟩

/-- Claim C9 counterexample: the creation notice carries the constant
type tag `matchmaker`, not `matchmaker-notice` as the claim states. -/
theorem creation_notice_tag_counterexample :
    (mkVirtualPlayer 0).notices.map Notice.type = ["matchmaker"] ∧
      "matchmaker" ≠ "matchmaker-notice" := by
  constructor
  · rfl
  · decide

/-- Claim C9 (amended): upon creation (Created to Waiting) a session
immediately sends exactly one notice on the client leg: type tag
`matchmaker`, queued true, matched false, detail
"Waiting for available streamer". -/
theorem creation_notice_fields (sid : Nat) :
    (mkVirtualPlayer sid).notices
      = [{ type := "matchmaker", queued := true, matched := false,
           detail := Detail.msg "Waiting for available streamer" }] := rfl

/-- Claim C10: in every reachable state, every notice a session has ever
sent to its client has `matched` equal to the negation of `queued`; both
fields are derived in `sendNotice` from the presence of the worker-leg
handle at send time. -/
theorem notice_consistency_invariant {st : GState} (h : Reachable st) :
    ∀ p ∈ st.sessions, ∀ n ∈ p.notices, n.matched = !n.queued :=
  (reachable_inv h).noticesOk

/-- Claim C10 witness: the invariant applied to the creation notice of a
concrete freshly connected client. -/
theorem notice_consistency_invariant_witness :
    ({ type := "matchmaker", queued := true, matched := false,
       detail := Detail.msg "Waiting for available streamer" } : Notice).matched
      = !({ type := "matchmaker", queued := true, matched := false,
            detail := Detail.msg "Waiting for available streamer" } : Notice).queued :=
  notice_consistency_invariant
    (Reachable.step (Reachable.init [] false (by simp)) (Step.clientConnect _ 0))
    (mkVirtualPlayer 0) (by decide) _ (by decide)

/-- Claim C5: in every state reachable through the event handlers, a
session is a member of the waiting queue exactly when its worker-leg
handle is absent and it has not reached the terminal disconnected
state. -/
theorem queue_membership_invariant {st : GState} (h : Reachable st) :
    ∀ p ∈ st.sessions, (p.sid ∈ st.queue ↔ (p.stream = none ∧ p.connected = true)) :=
  (reachable_inv h).queueIff

/-- Claim C5 witness: the invariant applied to the concrete state with
one waiting client and an empty pool. -/
theorem queue_membership_invariant_witness :
    ((mkVirtualPlayer 0).sid ∈ singleWaitingState.queue
      ↔ ((mkVirtualPlayer 0).stream = none ∧ (mkVirtualPlayer 0).connected = true)) :=
  queue_membership_invariant
    (Reachable.step (Reachable.init [] false (by simp)) (Step.clientConnect _ 0))
    (mkVirtualPlayer 0) (by decide)

/-- Claim C3: with sessions s1, s2, s3 queued in that order and exactly
one eligible worker in the pool, a single drain matches s1 to that worker
and then stops at s2 (no worker remains eligible), leaving s2 and s3
queued in their original relative order and untouched. -/
theorem drain_fifo_single_eligible (st : GState) (now : Int) (s1 s2 s3 : Nat)
    (p1 : Session) (w : Worker) (hr : Reachable st)
    (hq : st.queue = [s1, s2, s3])
    (hp1 : findSession st s1 = some p1)
    (hw : st.pool.filter (eligible st.debug now) = [w]) :
    (connectWaitingPlayers st now).queue = [s2, s3] ∧
    findSession (connectWaitingPlayers st now) s1 = some (matchSession w p1) := by
  have hInv := reachable_inv hr
  have hna : nextAvailable st now = some w := by
    unfold nextAvailable
    rw [find?_eq_head?_filter, hw]
    rfl
  obtain ⟨hp1_mem, hp1_sid⟩ := findSession_spec hp1
  have hmemq : p1.sid ∈ st.queue := by
    rw [hq, hp1_sid]
    exact List.mem_cons_self _ _
  obtain ⟨hstream1, hconn1⟩ := (hInv.queueIff p1 hp1_mem).mp hmemq
  have hassign : assignPlayer st s1 w
      = updateSession
          (updateWorker { st with queue := st.queue.erase s1 } w.wid
            (fun wr => { wr with allocated := true }))
          s1 (matchSession w) := by
    unfold assignPlayer
    rw [hp1]
    dsimp only
    rw [if_pos hconn1]
  have hq1 : (assignPlayer st s1 w).queue = [s2, s3] := by
    rw [hassign]
    show st.queue.erase s1 = [s2, s3]
    rw [hq]
    exact List.erase_cons_head s1 [s2, s3]
  have hpool1 : (assignPlayer st s1 w).pool
      = st.pool.map (fun x => if x.wid == w.wid then { x with allocated := true } else x) := by
    rw [hassign]
    rfl
  have hdebug1 : (assignPlayer st s1 w).debug = st.debug := by
    rw [hassign]
    rfl
  have hna1 : nextAvailable (assignPlayer st s1 w) now = none := by
    unfold nextAvailable
    rw [hpool1, hdebug1, find?_eq_head?_filter,
      eligible_updateWorker_alloc st.debug now st.pool w hw]
    rfl
  have hfind1 : findSession (assignPlayer st s1 w) s1 = some (matchSession w p1) := by
    rw [hassign]
    rw [findSession_updateSession _ s1 (matchSession w) (matchSession_sid w)]
    rw [show findSession
        (updateWorker { st with queue := st.queue.erase s1 } w.wid
          (fun wr => { wr with allocated := true })) s1 = findSession st s1 from rfl, hp1]
    rfl
  unfold connectWaitingPlayers
  rw [hq, drainLoop_cons_some now st s1 [s2, s3] w hna,
    drainLoop_cons_none now _ s2 [s3] hna1]
  exact ⟨hq1, hfind1⟩

/-- Claim C3 witness: three clients queue while the only worker is not
ready; the worker then turns ready and a drain matches exactly the first
client, leaving clients 1 and 2 queued in order. -/
theorem drain_fifo_single_eligible_witness :
    (connectWaitingPlayers fifoState 0).queue = [1, 2] ∧
    findSession (connectWaitingPlayers fifoState 0) 0
      = some (matchSession liveWorker (mkVirtualPlayer 0)) :=
  drain_fifo_single_eligible fifoState 0 0 1 2 (mkVirtualPlayer 0) liveWorker
    (Reachable.step
      (Reachable.step
        (Reachable.step
          (Reachable.step (Reachable.init [offlineWorker] false (by decide))
            (Step.clientConnect _ 0))
          (Step.clientConnect _ 0))
        (Step.clientConnect _ 0))
      (Step.poolExt _ [liveWorker]
        (by
          show PoolSkeleton [offlineWorker] [liveWorker]
          exact List.Forall₂.cons ⟨rfl, rfl⟩ List.Forall₂.nil)))
    (by decide) (by decide) (by decide)

/-- Claim C4 counterexample: from the concrete matched state, a clean
worker-leg close sends the drop notice and re-queues the client, but the
worker's `allocated` flag stays true — the claimed reset to false does
not happen on this path (only a worker-leg error or the client's own
disconnect clears it). -/
theorem streamer_close_keeps_allocated :
    (handleStreamerClose matchedState 0).pool.map Worker.allocated = [true] ∧
    ((findSession (handleStreamerClose matchedState 0) 0).map
        (fun p => (p.stream, p.connected, p.notices.getLast?)))
      = some (none, true,
          some { type := "matchmaker", queued := true, matched := false,
                 detail := Detail.msg "Streamer dropped" }) ∧
    (handleStreamerClose matchedState 0).queue = [0] := by decide

/-- Claim C4 (amended): when a matched session's worker leg closes while
the client leg is open, the session's stream reference is cleared, the
client receives `{queued:true, matched:false, detail:"Streamer dropped"}`,
and the session re-enters the waiting queue; the worker pool — in
particular the worker's `allocated` flag — is left untouched by this
handler. -/
theorem streamer_close_drop_notice_requeue (st : GState) (sid wid : Nat) (p : Session)
    (hf : findSession st sid = some p) (hs : p.stream = some wid)
    (hc : p.connected = true) :
    findSession (handleStreamerClose st sid) sid = some (dropSession p) ∧
    (dropSession p).stream = none ∧
    (dropSession p).notices = p.notices ++
      [{ type := "matchmaker", queued := true, matched := false,
         detail := Detail.msg "Streamer dropped" }] ∧
    sid ∈ (handleStreamerClose st sid).queue ∧
    (handleStreamerClose st sid).pool = st.pool := by
  have hsome : p.stream.isSome = true := by rw [hs]; rfl
  have hred : handleStreamerClose st sid
      = { updateSession st sid dropSession with queue := addQueue st.queue sid } := by
    unfold handleStreamerClose
    rw [hf]
    dsimp only
    rw [if_pos hsome, if_pos hc]
  rw [hred]
  refine ⟨?_, rfl, ?_, ?_, rfl⟩
  · have h1 := findSession_updateSession st sid dropSession dropSession_sid
    rw [hf] at h1
    exact h1
  · rfl
  · exact (mem_addQueue _ _ _).mpr (Or.inr rfl)

/-- Claim C4 witness: the amended drop behaviour at the concrete matched
state. -/
theorem streamer_close_drop_notice_requeue_witness :
    findSession (handleStreamerClose matchedState 0) 0
        = some (dropSession (matchSession liveWorker (mkVirtualPlayer 0))) ∧
    (dropSession (matchSession liveWorker (mkVirtualPlayer 0))).stream = none ∧
    (dropSession (matchSession liveWorker (mkVirtualPlayer 0))).notices
        = (matchSession liveWorker (mkVirtualPlayer 0)).notices ++
          [{ type := "matchmaker", queued := true, matched := false,
             detail := Detail.msg "Streamer dropped" }] ∧
    (0 : Nat) ∈ (handleStreamerClose matchedState 0).queue ∧
    (handleStreamerClose matchedState 0).pool = matchedState.pool :=
  streamer_close_drop_notice_requeue matchedState 0 0
    (matchSession liveWorker (mkVirtualPlayer 0)) (by decide) (by decide) (by decide)

/-- Claim C7 counterexample: in the reachable state with one matched
client and one ready worker there are no waiting clients, yet the gauge
reports 1 — it divides `wss.clients.size` (all connected clients) by the
ready workers, not the waiting-client count, which would give 0. -/
theorem demand_gauge_counts_connected_counterexample :
    streamerDemandGauge matchedState = 1 ∧ matchedState.queue = [] ∧
      specDemandGauge matchedState = 0 := by
  have h1 : (matchedState.sessions.filter (fun p => p.connected)).length = 1 := by decide
  have h2 : (matchedState.pool.filter (fun w => w.ready)).length = 1 := by decide
  have h3 : matchedState.queue = [] := by decide
  refine ⟨?_, h3, ?_⟩
  · simp only [streamerDemandGauge]
    rw [h1, h2]
    norm_num
  · simp only [specDemandGauge]
    rw [h3, h2]
    norm_num

/-- Claim C7 (amended): on every scrape the gauge reports
connectedClients / readyCount when at least one worker is ready, else
connectedClients + 1 when at least one client is connected, else 0 —
where connectedClients counts every open client websocket
(`wss.clients.size`), waiting or matched, not only the waiting ones. -/
theorem demand_gauge_formula (st : GState) :
    streamerDemandGauge st =
      if 0 < readyCount st then (connectedClients st : Rat) / (readyCount st : Rat)
      else if 0 < connectedClients st then (connectedClients st : Rat) + 1 else 0 := rfl

/-- Claim C1 (code defect): the no-double-allocation invariant fails on a
reachable trace.  Player 0 is matched to worker 0 and player 1 queues;
worker 0's leg errors (freeing it and re-queuing player 0); a drain hands
worker 0 to player 1; player 0 disconnects and its stale `freeServer`
closure — registered on `disconnect` during the first assignment and
never removed — clears worker 0's allocation even though player 1 holds
it; the next client is then assigned worker 0 as well.  In the final
state sessions 1 and 2 are both connected with their worker leg on
worker 0 while its `allocated` flag is true. -/
theorem double_allocation_reachable :
    Reachable doubleAllocState ∧
    ((findSession doubleAllocState 1).map (fun p => (p.connected, p.stream))
        = some (true, some 0)) ∧
    ((findSession doubleAllocState 2).map (fun p => (p.connected, p.stream))
        = some (true, some 0)) ∧
    doubleAllocState.pool.map (fun w => (w.wid, w.allocated)) = [(0, true)] :=
  ⟨Reachable.step
      (Reachable.step
        (Reachable.step
          (Reachable.step
            (Reachable.step
              (Reachable.step (Reachable.init [liveWorker] false (by decide))
                (Step.clientConnect _ 0))
              (Step.clientConnect _ 0))
            (Step.workerError _ 0))
          (Step.streamerData _ 0))
        (Step.clientClose _ 0))
      (Step.clientConnect _ 0),
    by decide, by decide, by decide⟩
